import Mathlib

/-!
Shallow embedding of src/bikerental.py (Bike Rental System).

The two persisted collections, bikes.json and bookings.json, are modelled as
the two fields of SysState; every menu operation of the source reloads and
rewrites them, so an operation is a function SysState → SysState (paired with
its printed outcome where a claim needs it).  Python floats are modelled as
Rat (every amount in the program is produced by parsing a decimal literal and
multiplying by a day count, which float performs exactly in the ranges at
hand); dates are modelled by the parsed calendar date, and datetime.now() by
a date together with the seconds elapsed since midnight, which is all the
comparisons in the source observe.
-/

namespace BikeRental

/-- Calendar date, as carried by the YYYY-MM-DD strings of the source. -/
structure Date where
  year : Nat
  month : Nat
  day : Nat
deriving DecidableEq, Repr

/-- Leap-year test of the proleptic Gregorian calendar used by Python datetime. -/
def isLeap (y : Nat) : Bool :=
  y % 4 == 0 && (y % 100 != 0 || y % 400 == 0)

/-- Cumulative days before the start of month m in a non-leap year. -/
def daysBeforeMonth (m : Nat) : Nat :=
  [0, 0, 31, 59, 90, 120, 151, 181, 212, 243, 273, 304, 334].getD m 0

/-- Day number of a date, exactly Python date.toordinal (0001-01-01 is day 1).
Subtracting two midnight datetimes in the source yields the difference of
these ordinals, in days. -/
def Date.toOrdinal (d : Date) : Nat :=
  365 * (d.year - 1) + (d.year - 1) / 4 - (d.year - 1) / 100 + (d.year - 1) / 400
    + daysBeforeMonth d.month
    + (if 2 < d.month && isLeap d.year then 1 else 0) + d.day

/-- datetime.now(): the current date together with the seconds elapsed since
midnight (any sub-day precision gives the same comparisons). -/
structure Instant where
  date : Date
  secondsIntoDay : Nat
deriving DecidableEq, Repr

/-- The test from_dt < datetime.now() of the source: from_dt is the parsed
date at midnight, now carries the wall-clock time of day. -/
def beforeNow (d : Date) (now : Instant) : Bool :=
  d.toOrdinal < now.date.toOrdinal
    || (d.toOrdinal == now.date.toOrdinal && now.secondsIntoDay != 0)

/-- Python str.lower, for the ASCII location strings of the program
(character-by-character lowering of the string's characters). -/
def lower (s : String) : String := ⟨s.data.map Char.toLower⟩

/-- class Bike of the source. -/
structure Bike where
  bike_id : String
  name : String
  color : String
  plate_number : String
  price_per_day : Rat
  location : String
  available : Bool
deriving DecidableEq, Repr

/-- class Booking of the source.  from_date and to_date hold the parsed
calendar dates carried by the YYYY-MM-DD strings of the source. -/
structure Booking where
  booking_id : String
  customer_username : String
  bike_id : String
  pickup_location : String
  from_date : Date
  to_date : Date
  total_amount : Rat
  status : String
deriving DecidableEq, Repr

/-- The durable state: the contents of bikes.json and bookings.json. -/
structure SysState where
  bikes : List Bike
  bookings : List Booking
deriving DecidableEq, Repr

/-! ## Customer operations -/

/-- Outcome printed by Customer.book_bike. -/
inductive BookResult
  | booked (booking_id : String)
  | invalidOrder
  | pastDate
  | noBikes
  | invalidNumber
  | cancelled
deriving DecidableEq, Repr

/-- Customer.book_bike (src/bikerental.py:184-271).  The interactive inputs
are parameters: pickup location, the two parsed dates, the wall clock read by
datetime.now(), the 1-based bike selection, the yes/no confirmation, and the
six random digits drawn for the booking id.  Date-parse failure (ValueError)
ends the operation before any of this logic runs and is not modelled. -/
def book_bike (me : String) (pickup : String) (from_date to_date : Date)
    (now : Instant) (bikeChoice : Nat) (confirm : Bool) (digits : String)
    (s : SysState) : SysState × BookResult :=
  if to_date.toOrdinal < from_date.toOrdinal then (s, .invalidOrder)
  else if beforeNow from_date now then (s, .pastDate)
  else
    let available_bikes := s.bikes.filter fun bk =>
      bk.available && (lower bk.location == lower pickup)
    if available_bikes.isEmpty then (s, .noBikes)
    else if 1 ≤ bikeChoice ∧ bikeChoice ≤ available_bikes.length then
      match available_bikes.get? (bikeChoice - 1) with
      | none => (s, .invalidNumber)
      | some selected_bike =>
        let rental_days : Nat := (to_date.toOrdinal - from_date.toOrdinal) + 1
        let total_amount : Rat := selected_bike.price_per_day * rental_days
        if confirm then
          let booking_id := "BKG" ++ digits
          let booking : Booking :=
            ⟨booking_id, me, selected_bike.bike_id, pickup,
             from_date, to_date, total_amount, "Pending"⟩
          ({ s with bookings := s.bookings ++ [booking] }, .booked booking_id)
        else (s, .cancelled)
    else (s, .invalidNumber)

/-- The lookup shared by Customer.view_booking_status and Customer.make_payment:
first booking whose id matches AND whose customer_username is the acting
customer's. -/
def find_owned (bookings : List Booking) (booking_id me : String) :
    Option Booking :=
  bookings.find? fun b =>
    b.booking_id == booking_id && b.customer_username == me

/-- Index form of the same lookup, to express the in-place mutation the
source performs on the found object. -/
def find_owned_idx (bookings : List Booking) (booking_id me : String) :
    Option Nat :=
  bookings.findIdx? fun b =>
    b.booking_id == booking_id && b.customer_username == me

/-- Customer.view_booking_status (src/bikerental.py:273-290): prints the
booking when found, "No booking found" otherwise. -/
def view_booking_status (me booking_id : String) (s : SysState) :
    Option Booking :=
  find_owned s.bookings booking_id me

/-- The for/break loop that flips the availability flag of the FIRST bike
with the given id (src/bikerental.py:336-339 and 626-629). -/
def set_avail_first : List Bike → String → Bool → List Bike
  | [], _, _ => []
  | bk :: rest, id, v =>
    if bk.bike_id == id then { bk with available := v } :: rest
    else bk :: set_avail_first rest id v

/-- Customer.make_payment (src/bikerental.py:292-347).  methodChoice is the
payment-method menu input; anything outside 1-3 cancels.  On success the
booking found is set to Completed in place and both collections are written
back by save_all_data. -/
def make_payment (me booking_id methodChoice : String) (s : SysState) :
    SysState :=
  match find_owned_idx s.bookings booking_id me with
  | none => s
  | some j =>
    match s.bookings.get? j with
    | none => s
    | some booking =>
      if booking.status != "Approved" then s
      else if methodChoice == "1" || methodChoice == "2" || methodChoice == "3"
      then
        { bikes := set_avail_first s.bikes booking.bike_id false,
          bookings := s.bookings.set j { booking with status := "Completed" } }
      else s

/-! ## Admin operations -/

/-- Admin.add_bike (src/bikerental.py:418-456).  digits are the four random
digits drawn for the id; priceInput is the result of float() on the entered
price, none when that raises ValueError.  Returns the new state and the id of
the added bike (none when the price did not parse). -/
def add_bike (digits name color plate_number : String)
    (priceInput : Option Rat) (location : String) (s : SysState) :
    SysState × Option String :=
  let bike_id := "BIKE" ++ digits
  match priceInput with
  | none => (s, none)
  | some price_per_day =>
    let bike : Bike :=
      ⟨bike_id, name, color, plate_number, price_per_day, location, true⟩
    ({ s with bikes := s.bikes ++ [bike] }, some bike_id)

/-- Outcome printed by Admin.delete_bike. -/
inductive DeleteResult
  | success
  | blocked (activeBookingCount : Nat)
  | notFound
  | cancelled
deriving DecidableEq, Repr

/-- Admin.delete_bike (src/bikerental.py:522-558).  confirm is the yes/no
answer.  Blocked when any booking with the bike's id is Pending or Approved;
otherwise every bike whose id matches is filtered out and the list saved. -/
def delete_bike (bike_id : String) (confirm : Bool) (s : SysState) :
    SysState × DeleteResult :=
  match s.bikes.find? (fun b => b.bike_id == bike_id) with
  | none => (s, .notFound)
  | some _ =>
    if confirm then
      let active_bookings := s.bookings.filter fun b =>
        b.bike_id == bike_id && (b.status == "Pending" || b.status == "Approved")
      if active_bookings.isEmpty then
        ({ s with bikes := s.bikes.filter fun b => b.bike_id != bike_id },
         .success)
      else (s, .blocked active_bookings.length)
    else (s, .cancelled)

/-- Rewrites the k-th (0-based) booking whose status is Pending to the given
status, leaving every other list entry untouched: this is the in-place
mutation selected_booking.status = ... of Admin.manage_bookings, where
selected_booking aliases an element of the loaded bookings list. -/
def update_nth_pending : List Booking → Nat → String → List Booking
  | [], _, _ => []
  | b :: rest, 0, st =>
    if b.status == "Pending" then { b with status := st } :: rest
    else b :: update_nth_pending rest 0 st
  | b :: rest, k + 1, st =>
    if b.status == "Pending" then b :: update_nth_pending rest k st
    else b :: update_nth_pending rest (k + 1) st

/-- Admin.manage_bookings (src/bikerental.py:579-638).  choice is the 1-based
selection among the pending bookings (0 cancels); action is "1" to approve,
"2" to reject, anything else cancels.  Approval rewrites only the bookings
file; rejection also flips the bike's availability and writes both files. -/
def manage_bookings (choice : Nat) (action : String) (s : SysState) :
    SysState :=
  let pending_bookings := s.bookings.filter fun b => b.status == "Pending"
  if pending_bookings.isEmpty then s
  else if choice == 0 then s
  else if 1 ≤ choice ∧ choice ≤ pending_bookings.length then
    match pending_bookings.get? (choice - 1) with
    | none => s
    | some selected_booking =>
      if action == "1" then
        { s with bookings := update_nth_pending s.bookings (choice - 1) "Approved" }
      else if action == "2" then
        { bikes := set_avail_first s.bikes selected_booking.bike_id true,
          bookings := update_nth_pending s.bookings (choice - 1) "Rejected" }
      else s
  else s

/-! ## The operations as a transition system -/

/-- Every state-changing operation the program offers, with its interactive
inputs as data.  update_bike touches no booking and no availability decision
relevant to the claims below; it is omitted from the alphabet only because no
claim mentions it. -/
inductive Op
  | book (me pickup : String) (from_date to_date : Date) (now : Instant)
      (bikeChoice : Nat) (confirm : Bool) (digits : String)
  | pay (me booking_id methodChoice : String)
  | addBike (digits name color plate_number : String)
      (priceInput : Option Rat) (location : String)
  | deleteBike (bike_id : String) (confirm : Bool)
  | manage (choice : Nat) (action : String)

/-- The effect of one operation on the persisted state. -/
def step : Op → SysState → SysState
  | .book me pickup f t now c cf d, s => (book_bike me pickup f t now c cf d s).1
  | .pay me bid m, s => make_payment me bid m s
  | .addBike d n c p pr l, s => (add_bike d n c p pr l s).1
  | .deleteBike id cf, s => (delete_bike id cf s).1
  | .manage c a, s => manage_bookings c a s

/-- The booking transitions the spec permits: unchanged, Pending to Approved,
Pending to Rejected, or Approved to Completed — and in each case every field
other than status keeps its value. -/
def statusStepOk (b b' : Booking) : Prop :=
  b' = b
    ∨ (b.status = "Pending"
        ∧ (b' = { b with status := "Approved" }
            ∨ b' = { b with status := "Rejected" }))
    ∨ (b.status = "Approved" ∧ b' = { b with status := "Completed" })

/-! ## Persistence layer (to_dict / from_dict and the JSON files) -/

/-- A JSON scalar as produced by the to_dict methods.  A date string stands
for the calendar date it denotes. -/
inductive JVal
  | str (v : String)
  | num (v : Rat)
  | bool (v : Bool)
  | date (v : Date)
deriving DecidableEq, Repr

/-- A JSON object: the ordered key/value pairs json.dump writes. -/
def JObj := List (String × JVal)

/-- Dictionary lookup data[k]. -/
def jget (o : JObj) (k : String) : Option JVal :=
  (o.find? fun p => p.1 == k).map fun p => p.2

def asStr : Option JVal → Option String
  | some (.str v) => some v
  | _ => none

def asNum : Option JVal → Option Rat
  | some (.num v) => some v
  | _ => none

def asBool : Option JVal → Option Bool
  | some (.bool v) => some v
  | _ => none

def asDate : Option JVal → Option Date
  | some (.date v) => some v
  | _ => none

/-- Bike.to_dict (src/bikerental.py:40-49). -/
def Bike.to_dict (b : Bike) : JObj :=
  [("bike_id", .str b.bike_id), ("name", .str b.name),
   ("color", .str b.color), ("plate_number", .str b.plate_number),
   ("price_per_day", .num b.price_per_day), ("location", .str b.location),
   ("available", .bool b.available)]

/-- Bike.from_dict (src/bikerental.py:51-61); none when a key is missing or
of the wrong shape. -/
def Bike.from_dict (o : JObj) : Option Bike := do
  let bike_id ← asStr (jget o "bike_id")
  let name ← asStr (jget o "name")
  let color ← asStr (jget o "color")
  let plate_number ← asStr (jget o "plate_number")
  let price_per_day ← asNum (jget o "price_per_day")
  let location ← asStr (jget o "location")
  let available ← asBool (jget o "available")
  pure ⟨bike_id, name, color, plate_number, price_per_day, location, available⟩

/-- Booking.to_dict (src/bikerental.py:83-93). -/
def Booking.to_dict (b : Booking) : JObj :=
  [("booking_id", .str b.booking_id),
   ("customer_username", .str b.customer_username),
   ("bike_id", .str b.bike_id),
   ("pickup_location", .str b.pickup_location),
   ("from_date", .date b.from_date), ("to_date", .date b.to_date),
   ("total_amount", .num b.total_amount), ("status", .str b.status)]

/-- Booking.from_dict (src/bikerental.py:95-106). -/
def Booking.from_dict (o : JObj) : Option Booking := do
  let booking_id ← asStr (jget o "booking_id")
  let customer_username ← asStr (jget o "customer_username")
  let bike_id ← asStr (jget o "bike_id")
  let pickup_location ← asStr (jget o "pickup_location")
  let from_date ← asDate (jget o "from_date")
  let to_date ← asDate (jget o "to_date")
  let total_amount ← asNum (jget o "total_amount")
  let status ← asStr (jget o "status")
  pure ⟨booking_id, customer_username, bike_id, pickup_location,
        from_date, to_date, total_amount, status⟩

/-- BikeRentalSystem.save_bikes: the list of objects json.dump writes. -/
def save_bikes (bikes : List Bike) : List JObj :=
  bikes.map Bike.to_dict

/-- BikeRentalSystem.load_bikes applied to a parsed file: one Bike per stored
object, in order (none only when an object lacks a field). -/
def load_bikes (data : List JObj) : Option (List Bike) :=
  data.mapM Bike.from_dict

/-- BikeRentalSystem.save_bookings. -/
def save_bookings (bookings : List Booking) : List JObj :=
  bookings.map Booking.to_dict

/-- BikeRentalSystem.load_bookings applied to a parsed file. -/
def load_bookings (data : List JObj) : Option (List Booking) :=
  data.mapM Booking.from_dict

/-! ## Concrete fixtures (used by witnesses and counterexamples) -/

/-- One of the sample bikes seeded by initialize_files. -/
def sampleBike : Bike :=
  ⟨"BIKE0001", "Yamaha R15", "Blue", "MH01AB1234", 25, "Downtown", true⟩

/-- A Pending booking of sampleBike by customer alice. -/
def sampleBooking : Booking :=
  ⟨"BKG000001", "alice", "BIKE0001", "Downtown",
   ⟨2024, 1, 1⟩, ⟨2024, 1, 3⟩, 75, "Pending"⟩

/-- State holding sampleBike and the Pending sampleBooking. -/
def sampleState : SysState := ⟨[sampleBike], [sampleBooking]⟩

/-- State holding sampleBike and no bookings. -/
def sampleStateNoBookings : SysState := ⟨[sampleBike], []⟩

/-- State holding sampleBike and the sample booking already Approved. -/
def sampleStateApproved : SysState :=
  ⟨[sampleBike], [{ sampleBooking with status := "Approved" }]⟩

/-- The booking book_bike creates from sampleStateNoBookings for
2024-01-01 .. 2024-01-03 with random digits 123456; its amount is the
product the source computes, price 25 over 3 inclusive days. -/
def sampleCreatedBooking : Booking :=
  ⟨"BKG123456", "alice", "BIKE0001", "Downtown",
   ⟨2024, 1, 1⟩, ⟨2024, 1, 3⟩, 25 * ((3 : Nat) : Rat), "Pending"⟩

/-! # Theorems -/

/-! ## Serialization round-trip -/

theorem bike_from_to_dict (b : Bike) : Bike.from_dict (Bike.to_dict b) = some b := by
  cases b; rfl

theorem booking_from_to_dict (b : Booking) :
    Booking.from_dict (Booking.to_dict b) = some b := by
  cases b; rfl

theorem mapM_map_roundtrip {α β : Type} (f : α → β) (g : β → Option α)
    (h : ∀ a, g (f a) = some a) (l : List α) : (l.map f).mapM g = some l := by
  induction l with
  | nil => rfl
  | cons a l ih =>
    rw [List.map_cons, List.mapM_cons, h a, ih]
    rfl

/-- C9: for every sequence of records, saving a collection (bikes or
bookings) and then loading it yields the same sequence of records in the
same order. -/
theorem C9_save_load_roundtrip :
    (∀ bikes : List Bike, load_bikes (save_bikes bikes) = some bikes)
    ∧ (∀ bookings : List Booking,
        load_bookings (save_bookings bookings) = some bookings) :=
  ⟨mapM_map_roundtrip Bike.to_dict Bike.from_dict bike_from_to_dict,
   mapM_map_roundtrip Booking.to_dict Booking.from_dict booking_from_to_dict⟩

/-! ## Helper lemmas about the booking-list surgery -/

theorem update_nth_pending_get? (st : String) (bs : List Booking) :
    ∀ (k i : Nat) (b b' : Booking),
      bs.get? i = some b →
      (update_nth_pending bs k st).get? i = some b' →
      b' = b ∨ (b.status = "Pending" ∧ b' = { b with status := st }) := by
  induction bs with
  | nil => intro k i b b' hb _; simp at hb
  | cons hd tl ih =>
    intro k i b b' hb hb'
    cases k with
    | zero =>
      cases i with
      | zero =>
        simp only [List.get?_cons_zero, Option.some.injEq] at hb
        subst hb
        simp only [update_nth_pending] at hb'
        split at hb'
        · rename_i hp
          simp only [List.get?_cons_zero, Option.some.injEq] at hb'
          exact Or.inr ⟨by simpa using hp, hb'.symm⟩
        · simp only [List.get?_cons_zero, Option.some.injEq] at hb'
          exact Or.inl hb'.symm
      | succ i =>
        simp only [List.get?_cons_succ] at hb
        simp only [update_nth_pending] at hb'
        split at hb'
        · simp only [List.get?_cons_succ] at hb'
          rw [hb] at hb'
          exact Or.inl (Option.some.inj hb').symm
        · simp only [List.get?_cons_succ] at hb'
          exact ih 0 i b b' hb hb'
    | succ k =>
      cases i with
      | zero =>
        simp only [List.get?_cons_zero, Option.some.injEq] at hb
        subst hb
        simp only [update_nth_pending] at hb'
        split at hb' <;>
        · simp only [List.get?_cons_zero, Option.some.injEq] at hb'
          exact Or.inl hb'.symm
      | succ i =>
        simp only [List.get?_cons_succ] at hb
        simp only [update_nth_pending] at hb'
        split at hb' <;> simp only [List.get?_cons_succ] at hb'
        · exact ih k i b b' hb hb'
        · exact ih (k + 1) i b b' hb hb'

theorem update_nth_pending_frame (st : String) (bs : List Booking) :
    ∀ (k : Nat) (sel : Booking),
      (bs.filter fun b => b.status == "Pending").get? k = some sel →
      ∃ j, bs.get? j = some sel
        ∧ (update_nth_pending bs k st).get? j = some { sel with status := st }
        ∧ ∀ i, i ≠ j → (update_nth_pending bs k st).get? i = bs.get? i := by
  induction bs with
  | nil => intro k sel h; simp at h
  | cons hd tl ih =>
    intro k sel h
    cases hp : hd.status == "Pending" with
    | true =>
      rw [List.filter_cons, if_pos hp] at h
      cases k with
      | zero =>
        simp only [List.get?_cons_zero, Option.some.injEq] at h
        subst h
        refine ⟨0, by simp, ?_, ?_⟩
        · simp [update_nth_pending, hp]
        · intro i hi
          cases i with
          | zero => exact absurd rfl hi
          | succ i => simp [update_nth_pending, hp]
      | succ k =>
        simp only [List.get?_cons_succ] at h
        obtain ⟨j, hj1, hj2, hj3⟩ := ih k sel h
        refine ⟨j + 1, by simpa using hj1, ?_, ?_⟩
        · simp only [update_nth_pending, hp, if_true, List.get?_cons_succ]
          exact hj2
        · intro i hi
          cases i with
          | zero => simp [update_nth_pending, hp]
          | succ i =>
            simp only [update_nth_pending, hp, if_true, List.get?_cons_succ]
            exact hj3 i (by omega)
    | false =>
      rw [List.filter_cons, if_neg (by simp [hp])] at h
      obtain ⟨j, hj1, hj2, hj3⟩ := ih k sel h
      cases k with
      | zero =>
        refine ⟨j + 1, by simpa using hj1, ?_, ?_⟩
        · simp only [update_nth_pending, hp, Bool.false_eq_true, if_false,
            List.get?_cons_succ]
          exact hj2
        · intro i hi
          cases i with
          | zero => simp [update_nth_pending, hp]
          | succ i =>
            simp only [update_nth_pending, hp, Bool.false_eq_true, if_false,
              List.get?_cons_succ]
            exact hj3 i (by omega)
      | succ k =>
        refine ⟨j + 1, by simpa using hj1, ?_, ?_⟩
        · simp only [update_nth_pending, hp, Bool.false_eq_true, if_false,
            List.get?_cons_succ]
          exact hj2
        · intro i hi
          cases i with
          | zero => simp [update_nth_pending, hp]
          | succ i =>
            simp only [update_nth_pending, hp, Bool.false_eq_true, if_false,
              List.get?_cons_succ]
            exact hj3 i (by omega)

theorem set_avail_first_avail (id : String) (v : Bool) :
    ∀ (bks : List Bike), (bks.map Bike.bike_id).Nodup →
      ∀ b' ∈ set_avail_first bks id v, b'.bike_id = id → b'.available = v := by
  intro bks
  induction bks with
  | nil => intro _ b' hb'; simp [set_avail_first] at hb'
  | cons bk rest ih =>
    intro hnd b' hb' hid
    have hnd' : (rest.map Bike.bike_id).Nodup :=
      (List.nodup_cons.mp (by simpa using hnd)).2
    simp only [set_avail_first] at hb'
    by_cases h : bk.bike_id == id
    · rw [if_pos h] at hb'
      rcases List.mem_cons.mp hb' with h1 | h1
      · subst h1; rfl
      · exfalso
        have hmem : b'.bike_id ∈ rest.map Bike.bike_id :=
          List.mem_map_of_mem Bike.bike_id h1
        have hni : bk.bike_id ∉ rest.map Bike.bike_id :=
          (List.nodup_cons.mp (by simpa using hnd)).1
        rw [hid, ← (by simpa using h : bk.bike_id = id)] at hmem
        exact hni hmem
    · rw [if_neg h] at hb'
      rcases List.mem_cons.mp hb' with h1 | h1
      · subst h1
        exact absurd (by simpa using hid) (by simpa using h)
      · exact ih hnd' b' h1 hid

theorem manage_eq (choice : Nat) (action : String) (s : SysState) (sel : Booking)
    (hch : choice ≠ 0)
    (hsel : (s.bookings.filter fun b => b.status == "Pending").get? (choice - 1)
              = some sel) :
    manage_bookings choice action s =
      if action == "1" then
        { s with bookings := update_nth_pending s.bookings (choice - 1) "Approved" }
      else if action == "2" then
        { bikes := set_avail_first s.bikes sel.bike_id true,
          bookings := update_nth_pending s.bookings (choice - 1) "Rejected" }
      else s := by
  have hlt : choice - 1 < (s.bookings.filter fun b => b.status == "Pending").length :=
    (List.get?_eq_some.mp hsel).1
  have hne : ((s.bookings.filter fun b => b.status == "Pending").isEmpty) = false := by
    rw [List.isEmpty_eq_false]
    intro hnil
    rw [hnil] at hlt
    simp at hlt
  have hc0 : (choice == 0) = false := by simpa using hch
  have hcb : 1 ≤ choice ∧
      choice ≤ (s.bookings.filter fun b => b.status == "Pending").length :=
    ⟨Nat.one_le_iff_ne_zero.mpr hch, by omega⟩
  simp only [manage_bookings, hne, hc0, hsel, Bool.false_eq_true, if_false,
    if_pos hcb]

theorem step_statusStepOk (o : Op) (s : SysState) (i : Nat) (b b' : Booking)
    (hb : s.bookings.get? i = some b)
    (hb' : (step o s).bookings.get? i = some b') :
    statusStepOk b b' := by
  have unchanged : s.bookings.get? i = some b' → statusStepOk b b' := by
    intro h
    rw [hb] at h
    exact Or.inl (Option.some.inj h).symm
  cases o with
  | book me pickup f t now c cf d =>
    simp only [step, book_bike] at hb'
    repeat' split at hb'
    all_goals first
      | exact unchanged hb'
      | (rw [List.get?_append (List.get?_eq_some.mp hb).1] at hb'
         exact unchanged hb')
  | pay me bid m =>
    simp only [step, make_payment] at hb'
    split at hb'
    · exact unchanged hb'
    · rename_i j hj
      split at hb'
      · exact unchanged hb'
      · rename_i booking hbj
        split at hb'
        · exact unchanged hb'
        · rename_i hst
          split at hb'
          · have hstatus : booking.status = "Approved" := by simpa using hst
            have hjlen : j < s.bookings.length := (List.get?_eq_some.mp hbj).1
            rw [List.get?_set_of_lt' _ s.bookings hjlen] at hb'
            by_cases hij : j = i
            · subst hij
              rw [if_pos rfl] at hb'
              rw [hb] at hbj
              have hbb : booking = b := (Option.some.inj hbj).symm
              subst hbb
              exact Or.inr (Or.inr ⟨hstatus, (Option.some.inj hb').symm⟩)
            · rw [if_neg hij] at hb'
              exact unchanged hb'
          · exact unchanged hb'
  | addBike d n c p pr l =>
    simp only [step, add_bike] at hb'
    split at hb' <;> exact unchanged hb'
  | deleteBike id cf =>
    simp only [step, delete_bike] at hb'
    repeat' split at hb'
    all_goals exact unchanged hb'
  | manage c a =>
    simp only [step, manage_bookings] at hb'
    repeat' split at hb'
    all_goals first
      | exact unchanged hb'
      | (rcases update_nth_pending_get? _ s.bookings _ i b b' hb hb' with h | ⟨h1, h2⟩
         · exact Or.inl h
         · exact Or.inr (Or.inl ⟨h1, Or.inl h2⟩))
      | (rcases update_nth_pending_get? _ s.bookings _ i b b' hb hb' with h | ⟨h1, h2⟩
         · exact Or.inl h
         · exact Or.inr (Or.inl ⟨h1, Or.inr h2⟩))

/-- C1: for every operation of the program and every stored booking, the
only status transitions ever performed are Pending to Approved, Pending to
Rejected and Approved to Completed (payment), each leaving all other fields
intact; in particular no operation changes a booking whose status is
Rejected or Completed. -/
theorem C1_status_transitions (o : Op) (s : SysState) (i : Nat) (b b' : Booking)
    (hb : s.bookings.get? i = some b)
    (hb' : (step o s).bookings.get? i = some b') :
    statusStepOk b b'
      ∧ ((b.status = "Rejected" ∨ b.status = "Completed") → b' = b) := by
  have h := step_statusStepOk o s i b b' hb hb'
  refine ⟨h, ?_⟩
  intro hterm
  rcases h with h | ⟨h1, _⟩ | ⟨h1, _⟩
  · exact h
  · rcases hterm with ht | ht <;> (rw [ht] at h1; exact absurd h1 (by decide))
  · rcases hterm with ht | ht <;> (rw [ht] at h1; exact absurd h1 (by decide))

theorem C1_status_transitions_witness :
    statusStepOk sampleBooking { sampleBooking with status := "Approved" }
      ∧ ((sampleBooking.status = "Rejected" ∨ sampleBooking.status = "Completed") →
          { sampleBooking with status := "Approved" } = sampleBooking) :=
  C1_status_transitions (Op.manage 1 "1") sampleState 0 _ _ rfl rfl

theorem make_payment_eq (me bid m : String) (s : SysState) (j : Nat)
    (booking : Booking)
    (hj : find_owned_idx s.bookings bid me = some j)
    (hb : s.bookings.get? j = some booking)
    (hst : booking.status = "Approved")
    (hm : m = "1" ∨ m = "2" ∨ m = "3") :
    make_payment me bid m s =
      { bikes := set_avail_first s.bikes booking.bike_id false,
        bookings := s.bookings.set j { booking with status := "Completed" } } := by
  have h1 : (booking.status != "Approved") = false := by simp [hst]
  have h2 : (m == "1" || m == "2" || m == "3") = true := by
    rcases hm with h | h | h <;> simp [h]
  simp only [make_payment, hj, hb, h1, Bool.false_eq_true, if_false]
  rcases hm with h | h | h <;> simp [h]

/-- C10: approving a Pending booking changes only that booking's status and
only the bookings collection: the bikes collection (hence the referenced
bike's availability flag) is untouched, and every other booking keeps its
value. -/
theorem C10_approve_frame (choice : Nat) (s : SysState) (sel : Booking)
    (hch : choice ≠ 0)
    (hsel : (s.bookings.filter fun b => b.status == "Pending").get? (choice - 1)
              = some sel) :
    (manage_bookings choice "1" s).bikes = s.bikes
      ∧ ∃ j, s.bookings.get? j = some sel ∧ sel.status = "Pending"
          ∧ (manage_bookings choice "1" s).bookings.get? j
              = some { sel with status := "Approved" }
          ∧ ∀ i, i ≠ j →
              (manage_bookings choice "1" s).bookings.get? i
                = s.bookings.get? i := by
  rw [manage_eq choice "1" s sel hch hsel]
  obtain ⟨j, hj1, hj2, hj3⟩ :=
    update_nth_pending_frame "Approved" s.bookings (choice - 1) sel hsel
  have hpend : sel.status = "Pending" := by
    have hmem := List.get?_mem hsel
    simpa using (List.mem_filter.mp hmem).2
  exact ⟨rfl, j, hj1, hpend, hj2, hj3⟩

theorem C10_approve_frame_witness :
    (manage_bookings 1 "1" sampleState).bikes = sampleState.bikes
      ∧ ∃ j, sampleState.bookings.get? j = some sampleBooking
          ∧ sampleBooking.status = "Pending"
          ∧ (manage_bookings 1 "1" sampleState).bookings.get? j
              = some { sampleBooking with status := "Approved" }
          ∧ ∀ i, i ≠ j →
              (manage_bookings 1 "1" sampleState).bookings.get? i
                = sampleState.bookings.get? i :=
  C10_approve_frame 1 sampleState sampleBooking (by decide) rfl

/-- C2: rejecting a Pending booking sets the referenced bike's availability
flag to true, and completing payment on an Approved booking sets it to
false; in each case the post-state carries both the updated bikes collection
and the updated bookings collection (the source writes both files in the
same save_all_data call). -/
theorem C2_reject_and_payment_availability :
    (∀ (choice : Nat) (s : SysState) (sel : Booking),
        choice ≠ 0 →
        (s.bookings.filter fun b => b.status == "Pending").get? (choice - 1)
            = some sel →
        (s.bikes.map Bike.bike_id).Nodup →
        (∀ bk' ∈ (manage_bookings choice "2" s).bikes,
            bk'.bike_id = sel.bike_id → bk'.available = true)
          ∧ ∃ j, s.bookings.get? j = some sel
              ∧ (manage_bookings choice "2" s).bookings.get? j
                  = some { sel with status := "Rejected" })
    ∧ (∀ (me bid m : String) (s : SysState) (j : Nat) (booking : Booking),
        find_owned_idx s.bookings bid me = some j →
        s.bookings.get? j = some booking →
        booking.status = "Approved" →
        (m = "1" ∨ m = "2" ∨ m = "3") →
        (s.bikes.map Bike.bike_id).Nodup →
        (∀ bk' ∈ (make_payment me bid m s).bikes,
            bk'.bike_id = booking.bike_id → bk'.available = false)
          ∧ (make_payment me bid m s).bookings.get? j
              = some { booking with status := "Completed" }) := by
  constructor
  · intro choice s sel hch hsel hnd
    rw [manage_eq choice "2" s sel hch hsel]
    simp only [show (("2" : String) == "1") = false from rfl,
      show (("2" : String) == "2") = true from rfl,
      Bool.false_eq_true, if_false, if_true]
    obtain ⟨j, hj1, hj2, _⟩ :=
      update_nth_pending_frame "Rejected" s.bookings (choice - 1) sel hsel
    exact ⟨set_avail_first_avail sel.bike_id true s.bikes hnd, j, hj1, hj2⟩
  · intro me bid m s j booking hj hb hst hm hnd
    rw [make_payment_eq me bid m s j booking hj hb hst hm]
    refine ⟨set_avail_first_avail booking.bike_id false s.bikes hnd, ?_⟩
    have hjlen : j < s.bookings.length := (List.get?_eq_some.mp hb).1
    rw [List.get?_set_of_lt' _ s.bookings hjlen, if_pos rfl]

theorem C2_reject_and_payment_availability_witness :
    ((∀ bk' ∈ (manage_bookings 1 "2" sampleState).bikes,
          bk'.bike_id = sampleBooking.bike_id → bk'.available = true)
        ∧ ∃ j, sampleState.bookings.get? j = some sampleBooking
            ∧ (manage_bookings 1 "2" sampleState).bookings.get? j
                = some { sampleBooking with status := "Rejected" })
      ∧ ((∀ bk' ∈ (make_payment "alice" "BKG000001" "1" sampleStateApproved).bikes,
            bk'.bike_id = ({ sampleBooking with status := "Approved" } : Booking).bike_id →
              bk'.available = false)
          ∧ (make_payment "alice" "BKG000001" "1" sampleStateApproved).bookings.get? 0
              = some { { sampleBooking with status := "Approved" } with
                        status := "Completed" }) :=
  ⟨C2_reject_and_payment_availability.1 1 sampleState sampleBooking
      (by decide) rfl (by decide),
   C2_reject_and_payment_availability.2 "alice" "BKG000001" "1"
      sampleStateApproved 0 { sampleBooking with status := "Approved" }
      rfl rfl rfl (Or.inl rfl) (by decide)⟩

/-- C4: with the bike present and the deletion confirmed, delete_bike is
Blocked (reporting the active-booking count, state unchanged) exactly when
some Pending or Approved booking references the id; when every booking
referencing the id is Completed or Rejected it succeeds, keeps the bookings,
and removes exactly the bikes bearing that id. -/
theorem C4_delete_bike (s : SysState) (bike_id : String) (bk : Bike)
    (hfound : s.bikes.find? (fun b => b.bike_id == bike_id) = some bk) :
    ((∃ b ∈ s.bookings, b.bike_id = bike_id
          ∧ (b.status = "Pending" ∨ b.status = "Approved")) →
        delete_bike bike_id true s
            = (s, .blocked (s.bookings.filter fun b =>
                b.bike_id == bike_id
                  && (b.status == "Pending" || b.status == "Approved")).length)
          ∧ (s.bookings.filter fun b =>
                b.bike_id == bike_id
                  && (b.status == "Pending" || b.status == "Approved")).length ≠ 0)
      ∧ ((∀ b ∈ s.bookings, b.bike_id = bike_id →
            b.status = "Completed" ∨ b.status = "Rejected") →
          (delete_bike bike_id true s).2 = .success
            ∧ (delete_bike bike_id true s).1.bookings = s.bookings
            ∧ ∀ b, b ∈ (delete_bike bike_id true s).1.bikes
                ↔ (b ∈ s.bikes ∧ b.bike_id ≠ bike_id))
      ∧ ((delete_bike bike_id true s).2 = .success →
          ∀ b ∈ s.bookings, b.bike_id = bike_id →
            b.status ≠ "Pending" ∧ b.status ≠ "Approved") := by
  cases hE : (s.bookings.filter fun b =>
      b.bike_id == bike_id && (b.status == "Pending" || b.status == "Approved")).isEmpty
  · -- some active booking: blocked
    have hres : delete_bike bike_id true s
        = (s, .blocked (s.bookings.filter fun b =>
            b.bike_id == bike_id
              && (b.status == "Pending" || b.status == "Approved")).length) := by
      simp [delete_bike, hfound, hE]
    obtain ⟨b, hbmem⟩ := List.isEmpty_eq_false_iff_exists_mem.mp hE
    have hbP := List.mem_filter.mp hbmem
    refine ⟨fun _ => ⟨hres, ?_⟩, fun hall => ?_, fun hsucc => ?_⟩
    · intro h0
      rw [List.length_eq_zero] at h0
      rw [h0] at hbmem
      simp at hbmem
    · exfalso
      obtain ⟨hbm, hp⟩ := hbP
      simp only [Bool.and_eq_true, Bool.or_eq_true, beq_iff_eq] at hp
      rcases hall b hbm hp.1 with h | h <;>
        rcases hp.2 with h2 | h2 <;> rw [h2] at h <;> exact absurd h (by decide)
    · rw [hres] at hsucc
      exact absurd hsucc (by simp)
  · -- no active booking: success
    have hres : delete_bike bike_id true s
        = ({ s with bikes := s.bikes.filter fun b => b.bike_id != bike_id },
           .success) := by
      simp [delete_bike, hfound, hE]
    have hnone := List.isEmpty_iff.mp hE
    refine ⟨fun hex => ?_, fun _ => ?_, fun _ => ?_⟩
    · exfalso
      obtain ⟨b, hbm, hid, hst⟩ := hex
      have : b ∈ s.bookings.filter fun b =>
          b.bike_id == bike_id && (b.status == "Pending" || b.status == "Approved") := by
        rw [List.mem_filter]
        refine ⟨hbm, ?_⟩
        simp only [Bool.and_eq_true, Bool.or_eq_true, beq_iff_eq]
        exact ⟨hid, hst⟩
      rw [hnone] at this
      simp at this
    · rw [hres]
      refine ⟨rfl, rfl, fun b => ?_⟩
      simp only [List.mem_filter, bne_iff_ne, ne_eq]
    · intro b hbm hid
      have hnotmem : b ∉ s.bookings.filter fun b =>
          b.bike_id == bike_id && (b.status == "Pending" || b.status == "Approved") := by
        rw [hnone]; simp
      constructor <;> intro hst <;>
        exact hnotmem (List.mem_filter.mpr ⟨hbm, by simp [hid, hst]⟩)

theorem C4_delete_bike_witness :
    ((∃ b ∈ sampleState.bookings, b.bike_id = "BIKE0001"
          ∧ (b.status = "Pending" ∨ b.status = "Approved")) →
        delete_bike "BIKE0001" true sampleState
            = (sampleState, .blocked (sampleState.bookings.filter fun b =>
                b.bike_id == "BIKE0001"
                  && (b.status == "Pending" || b.status == "Approved")).length)
          ∧ (sampleState.bookings.filter fun b =>
                b.bike_id == "BIKE0001"
                  && (b.status == "Pending" || b.status == "Approved")).length ≠ 0)
      ∧ ((∀ b ∈ sampleState.bookings, b.bike_id = "BIKE0001" →
            b.status = "Completed" ∨ b.status = "Rejected") →
          (delete_bike "BIKE0001" true sampleState).2 = .success
            ∧ (delete_bike "BIKE0001" true sampleState).1.bookings
                = sampleState.bookings
            ∧ ∀ b, b ∈ (delete_bike "BIKE0001" true sampleState).1.bikes
                ↔ (b ∈ sampleState.bikes ∧ b.bike_id ≠ "BIKE0001"))
      ∧ ((delete_bike "BIKE0001" true sampleState).2 = .success →
          ∀ b ∈ sampleState.bookings, b.bike_id = "BIKE0001" →
            b.status ≠ "Pending" ∧ b.status ≠ "Approved") :=
  C4_delete_bike sampleState "BIKE0001" sampleBike rfl

/-- C8: when every booking bearing the requested id belongs to a different
customer, the customer-facing lookup reports NotFound: view_booking_status
returns nothing and make_payment leaves the state untouched. -/
theorem C8_ownership (s : SysState) (booking_id me methodChoice : String)
    (h : ∀ b ∈ s.bookings, b.booking_id = booking_id →
        b.customer_username ≠ me) :
    view_booking_status me booking_id s = none
      ∧ make_payment me booking_id methodChoice s = s := by
  have hfind : find_owned s.bookings booking_id me = none := by
    rw [find_owned, List.find?_eq_none]
    intro b hb
    simp only [Bool.and_eq_true, beq_iff_eq, not_and]
    intro hid
    exact h b hb hid
  have hidx : find_owned_idx s.bookings booking_id me = none := by
    rw [find_owned_idx, List.findIdx?_eq_none_iff]
    intro b hb
    by_cases hid : b.booking_id = booking_id
    · simp [hid, h b hb hid]
    · simp [hid]
  constructor
  · rw [view_booking_status, hfind]
  · simp only [make_payment, hidx]

theorem C8_ownership_witness :
    view_booking_status "bob" "BKG000001" sampleState = none
      ∧ make_payment "bob" "BKG000001" "1" sampleState = sampleState :=
  C8_ownership sampleState "BKG000001" "bob" "1" (by decide)

/-- C3: every booking that book_bike persists stores
price_per_day * (inclusive day count), computed once at creation (no later
operation rewrites total_amount); and the concrete booking 2024-01-01 to
2024-01-03 at price-per-day 25 stores 75. -/
theorem C3_total_amount :
    (∀ (me pickup : String) (f t : Date) (now : Instant) (choice : Nat)
        (digits : String) (s s' : SysState) (bid : String),
        book_bike me pickup f t now choice true digits s = (s', .booked bid) →
        f.toOrdinal ≤ t.toOrdinal
          ∧ ∃ booking : Booking, s'.bookings = s.bookings ++ [booking]
              ∧ booking.from_date = f ∧ booking.to_date = t
              ∧ ∃ bike ∈ s.bikes, bike.bike_id = booking.bike_id
                  ∧ booking.total_amount
                      = bike.price_per_day
                          * (((t.toOrdinal - f.toOrdinal) + 1 : Nat) : Rat))
      ∧ (∀ (o : Op) (s : SysState) (i : Nat) (b b' : Booking),
          s.bookings.get? i = some b →
          (step o s).bookings.get? i = some b' →
          b'.total_amount = b.total_amount)
      ∧ (book_bike "alice" "Downtown" ⟨2024, 1, 1⟩ ⟨2024, 1, 3⟩
            ⟨⟨2024, 1, 1⟩, 0⟩ 1 true "123456" sampleStateNoBookings).1.bookings
          = [sampleCreatedBooking]
      ∧ sampleCreatedBooking.total_amount = 75 := by
  refine ⟨?_, ?_, ?_, ?_⟩
  · intro me pickup f t now choice digits s s' bid h
    simp only [book_bike] at h
    split at h
    · simp at h
    · split at h
      · simp at h
      · split at h
        · simp at h
        · split at h
          · rename_i hnotlt _ _ hchoice
            split at h
            · simp at h
            · rename_i selected hsel
              split at h
              · rw [Prod.ext_iff] at h
                obtain ⟨h1, _⟩ := h
                subst h1
                refine ⟨Nat.le_of_not_lt hnotlt, _, rfl, rfl, rfl,
                  selected, ?_, rfl, rfl⟩
                exact (List.mem_filter.mp (List.get?_mem hsel)).1
              · simp at h
          · simp at h
  · intro o s i b b' hb hb'
    rcases step_statusStepOk o s i b b' hb hb' with h | ⟨_, h | h⟩ | ⟨_, h⟩ <;>
      rw [h]
  · rfl
  · norm_num [sampleCreatedBooking]

theorem C3_total_amount_witness :
    Date.toOrdinal ⟨2024, 1, 1⟩ ≤ Date.toOrdinal ⟨2024, 1, 3⟩
      ∧ ∃ booking : Booking,
          (⟨[sampleBike], [sampleCreatedBooking]⟩ : SysState).bookings
              = sampleStateNoBookings.bookings ++ [booking]
            ∧ booking.from_date = ⟨2024, 1, 1⟩ ∧ booking.to_date = ⟨2024, 1, 3⟩
            ∧ ∃ bike ∈ sampleStateNoBookings.bikes,
                bike.bike_id = booking.bike_id
                  ∧ booking.total_amount
                      = bike.price_per_day
                          * (((Date.toOrdinal ⟨2024, 1, 3⟩
                                - Date.toOrdinal ⟨2024, 1, 1⟩) + 1 : Nat) : Rat) :=
  C3_total_amount.1 "alice" "Downtown" ⟨2024, 1, 1⟩ ⟨2024, 1, 3⟩
    ⟨⟨2024, 1, 1⟩, 0⟩ 1 "123456" sampleStateNoBookings
    ⟨[sampleBike], [sampleCreatedBooking]⟩ "BKG123456" rfl

/-- C5 (code bug witness): a request whose fromDate equals the current date
is rejected as a past date whenever the wall clock is past midnight, because
the source compares the parsed date at midnight against datetime.now() with
its time of day.  Here 2024-01-01 .. 2024-01-01, requested at noon of
2024-01-01 with a matching available bike in stock, is refused as past even
though the from date is not before the current date. -/
theorem C5_same_day_rejected_as_past :
    book_bike "alice" "Downtown" ⟨2024, 1, 1⟩ ⟨2024, 1, 1⟩
        ⟨⟨2024, 1, 1⟩, 43200⟩ 1 true "123456" sampleStateNoBookings
      = (sampleStateNoBookings, .pastDate)
    ∧ ¬ Date.toOrdinal ⟨2024, 1, 1⟩ < Date.toOrdinal ⟨2024, 1, 1⟩
    ∧ sampleBike ∈ sampleStateNoBookings.bikes
    ∧ sampleBike.available = true
    ∧ lower sampleBike.location = lower "Downtown" :=
  ⟨rfl, by omega, by simp [sampleStateNoBookings], rfl, rfl⟩

/-- C6 counterexample: with a bike of id BIKE0001 already stored and the
random digits drawn as 0001, add_bike returns an identifier that is NOT
unique among the existing bikes — the resulting id column holds a
duplicate. -/
theorem C6_counterexample :
    (add_bike "0001" "Honda" "Red" "MH99ZZ0001" (some 20) "Uptown"
        sampleStateNoBookings).2 = some "BIKE0001"
      ∧ "BIKE0001" ∈ sampleStateNoBookings.bikes.map Bike.bike_id
      ∧ ¬ ((add_bike "0001" "Honda" "Red" "MH99ZZ0001" (some 20) "Uptown"
            sampleStateNoBookings).1.bikes.map Bike.bike_id).Nodup :=
  ⟨rfl, by decide, by decide⟩

/-- C6 (amended): add_bike builds the identifier BIKE followed by the four
random digits and appends the bike unconditionally, with no collision
check; the returned identifier is unique among the existing bikes'
identifiers exactly when no stored bike already bears that identifier. -/
theorem C6_amended_id_unique_iff (digits name color plate : String) (p : Rat)
    (loc : String) (s : SysState) :
    add_bike digits name color plate (some p) loc s
        = ({ s with bikes := s.bikes ++ [⟨"BIKE" ++ digits, name, color,
              plate, p, loc, true⟩] }, some ("BIKE" ++ digits))
      ∧ ((("BIKE" ++ digits) ∉ s.bikes.map Bike.bike_id) ↔
          ∀ b ∈ s.bikes, b.bike_id ≠ ("BIKE" ++ digits)) := by
  refine ⟨rfl, ?_⟩
  rw [List.mem_map]
  push_neg
  constructor
  · intro h b hb
    exact h b hb
  · intro h b hb
    exact h b hb

/-- C7 counterexample: the entered price -5 parses to a negative number,
yet add_bike accepts it and appends the bike, changing the persisted
collection. -/
theorem C7_counterexample :
    (add_bike "0002" "Honda" "Red" "MH99ZZ0002" (some (-5)) "Uptown"
        ⟨[], []⟩).1.bikes
        = [⟨"BIKE0002", "Honda", "Red", "MH99ZZ0002", -5, "Uptown", true⟩]
      ∧ ((-5 : Rat) < 0) :=
  ⟨rfl, by norm_num⟩

/-- C7 (amended): add_bike validates only that the price parses as a
number: on parse failure nothing is added and the state is returned
untouched, while every parsed price — negative ones included — is accepted
and the bike appended with exactly that price. -/
theorem C7_amended_price_validation (digits name color plate loc : String)
    (s : SysState) :
    add_bike digits name color plate none loc s = (s, none)
      ∧ ∀ p : Rat,
          (add_bike digits name color plate (some p) loc s).1.bikes
            = s.bikes
                ++ [⟨"BIKE" ++ digits, name, color, plate, p, loc, true⟩] :=
  ⟨rfl, fun _ => rfl⟩

end BikeRental
